import Mathlib

/-!
# Audio IN path of the PSoC 6 USB audio recorder (`audio_in.c`)

A shallow embedding of `audio_in.c`: the five globals of the file, the PDM/PCM RX FIFO
level and the ordered list of driver calls are one explicit `State`; every C function is
a state transformer.  The compile-time constants of `audio.h`, `usb_comm.h` and the
generated `cycfg` files are not part of the translated file and are parameters (`Config`).
`uint32_t` values are natural numbers, reduced modulo `2 ^ 32` wherever C stores or
computes them.  A `memset` that runs past the end of the sample buffer has no defined
result in C; `audio_in_process` then returns `none`.
-/

namespace AudioIn

/-! ## Machine arithmetic -/

/-- Number of values of a `uint32_t`. -/
def UINT32_MOD : Nat := 4294967296

/-- Conversion of a value to `uint32_t`. -/
def u32 (x : Nat) : Nat := x % UINT32_MOD

/-- The `uint32_t` sum `a + b`. -/
def u32_add (a b : Nat) : Nat := (a + b) % UINT32_MOD

/-- The `uint32_t` difference `a - b` (wraps around below zero). -/
def u32_sub (a b : Nat) : Nat := (a + (UINT32_MOD - b % UINT32_MOD)) % UINT32_MOD

/-- The `uint32_t` product `a * b`. -/
def u32_mul (a b : Nat) : Nat := (a * b) % UINT32_MOD

/-! ## Constants, driver calls, state -/

/-- Compile-time constants used by `audio_in.c` and defined outside it. -/
structure Config where
  /-- Nominal number of samples in a frame (`AUDIO_FRAME_DATA_SIZE`). -/
  AUDIO_FRAME_DATA_SIZE : Nat
  /-- Step of the frame size adjustment (`AUDIO_DELTA_VALUE`). -/
  AUDIO_DELTA_VALUE : Nat
  /-- Number of 16-bit words of `audio_in_pcm_buffer` (`AUDIO_MAX_DATA_SIZE`). -/
  AUDIO_MAX_DATA_SIZE : Nat
  /-- Bytes per sample (`AUDIO_SAMPLE_DATA_SIZE`). -/
  AUDIO_SAMPLE_DATA_SIZE : Nat
  /-- Size in bytes of the Audio IN endpoint (`AUDIO_IN_ENDPOINT_SIZE`). -/
  AUDIO_IN_ENDPOINT_SIZE : Nat
  /-- The field `CYBSP_PDM_config.rxFifoTriggerLevel`. -/
  rxFifoTriggerLevel : Nat
deriving DecidableEq

/-- Calls into the USB, DMA and PDM/PCM drivers, and the `memset` of the PCM buffer. -/
inductive Action where
  | Cy_USBFS_Dev_Drv_RegisterEndpointCallback
  | Cy_DMA_Descriptor_Init
  | Cy_DMA_Channel_Init
  | Cy_DMA_Enable
  | Cy_DMA_Descriptor_SetSrcAddress
  | Cy_DMA_Descriptor_SetDstAddress
  | Cy_DMA_Channel_Enable
  | Cy_PDM_PCM_Init
  | memset_pcm_buffer (bytes : Nat)
  | Cy_PDM_PCM_ClearFifo
  | Cy_PDM_PCM_Enable
  | Cy_USB_Dev_WriteEpNonBlocking (bytes : Nat)
  | Cy_PDM_PCM_GetNumInFifo
  | Cy_DMA_Descriptor_SetXloopDataCount (count : Nat)
deriving DecidableEq

/-- The globals of `audio_in.c`, the level of the PDM/PCM RX FIFO, and the driver calls
made so far (oldest first). -/
structure State where
  /-- The array `uint16_t audio_in_pcm_buffer[AUDIO_MAX_DATA_SIZE]`, one entry per word. -/
  audio_in_pcm_buffer : List Nat
  audio_in_count : Nat
  audio_in_start_recording : Bool
  audio_in_is_recording : Bool
  audio_in_frame_size : Nat
  /-- Number of samples in the PDM/PCM RX FIFO (what `Cy_PDM_PCM_GetNumInFifo` reads). -/
  pdm_rx_fifo : Nat
  /-- Driver calls made so far, oldest first. -/
  trace : List Action
deriving DecidableEq

/-- The words of a `uint16_t` array after its first `nbytes` bytes are set to zero, for
`nbytes` within the array: a word with both bytes among them becomes zero, a word whose
low-address byte alone is among them loses its low byte (little-endian target), the
other words are kept. -/
def zero_bytes : List Nat → Nat → List Nat
  | [], _ => []
  | w :: ws, nbytes =>
    (if 2 ≤ nbytes then 0 else if 1 ≤ nbytes then (w / 256) * 256 else w)
      :: zero_bytes ws (nbytes - 2)

/-! ## The functions of `audio_in.c` -/

/-- State of the globals after C static initialisation, before any function ran. -/
def static_init (cfg : Config) : State :=
  { audio_in_pcm_buffer := List.replicate cfg.AUDIO_MAX_DATA_SIZE 0
    audio_in_count := 0
    audio_in_start_recording := false
    audio_in_is_recording := false
    audio_in_frame_size := u32 cfg.AUDIO_FRAME_DATA_SIZE
    pdm_rx_fifo := 0
    trace := [] }

/-- A driver call whose effect on the modelled state is only that it was made. -/
@[simp] def driver_call (a : Action) (s : State) : State :=
  { s with trace := s.trace ++ [a] }


/-- The call `memset(audio_in_pcm_buffer, 0, nbytes)`.  Within the array it zeroes the
first `nbytes` bytes.  A length above the size of the array writes past its end, into
whatever is placed behind it (`audio_in_count` and the two flags are declared right
after the buffer): this is undefined behaviour and has no result here. -/
def memset_audio_in_pcm_buffer (nbytes : Nat) (s : State) : Option State :=
  if nbytes ≤ 2 * s.audio_in_pcm_buffer.length then
    some
      { s with
        audio_in_pcm_buffer := zero_bytes s.audio_in_pcm_buffer nbytes
        trace := s.trace ++ [Action.memset_pcm_buffer nbytes] }
  else none

/-- The driver call `Cy_PDM_PCM_ClearFifo` of the peripheral library: by the contract of
the PDM/PCM block (clear FIFO) it leaves the RX FIFO empty. -/
@[simp] def Cy_PDM_PCM_ClearFifo (s : State) : State :=
  { s with
    pdm_rx_fifo := 0
    trace := s.trace ++ [Action.Cy_PDM_PCM_ClearFifo] }

/-- The driver call `Cy_PDM_PCM_GetNumInFifo` of the peripheral library: by the contract
of the PDM/PCM block (get FIFO occupancy) it returns the number of samples in the RX
FIFO. -/
@[simp] def Cy_PDM_PCM_GetNumInFifo (s : State) : Nat × State :=
  (s.pdm_rx_fifo, driver_call Action.Cy_PDM_PCM_GetNumInFifo s)

/-- The function `audio_in_init`. -/
def audio_in_init (s : State) : State :=
  let s1 := driver_call Action.Cy_USBFS_Dev_Drv_RegisterEndpointCallback s
  let s2 := driver_call Action.Cy_DMA_Descriptor_Init s1
  let s3 := driver_call Action.Cy_DMA_Channel_Init s2
  let s4 := driver_call Action.Cy_DMA_Enable s3
  let s5 := driver_call Action.Cy_DMA_Descriptor_SetSrcAddress s4
  let s6 := driver_call Action.Cy_DMA_Descriptor_SetDstAddress s5
  let s7 := driver_call Action.Cy_DMA_Channel_Enable s6
  let s8 : State := { s7 with audio_in_count := s7.audio_in_frame_size }
  driver_call Action.Cy_PDM_PCM_Init s8

/-- The function `audio_in_enable`. -/
def audio_in_enable (s : State) : State :=
  { s with audio_in_start_recording := true }

/-- The function `audio_in_disable`. -/
def audio_in_disable (s : State) : State :=
  { s with audio_in_is_recording := false }

/-- The function `audio_in_process`.  The result is `none` when the `memset` runs past
the end of `audio_in_pcm_buffer`. -/
def audio_in_process (cfg : Config) (s : State) : Option State :=
  if s.audio_in_start_recording then
    let s1 : State := { s with audio_in_start_recording := false }
    let s2 : State := { s1 with audio_in_is_recording := true }
    match memset_audio_in_pcm_buffer (u32 cfg.AUDIO_IN_ENDPOINT_SIZE) s2 with
    | none => none
    | some s3 =>
      let s4 := Cy_PDM_PCM_ClearFifo s3
      let s5 := driver_call Action.Cy_PDM_PCM_Enable s4
      some
        (driver_call
          (Action.Cy_USB_Dev_WriteEpNonBlocking
            (u32_mul cfg.AUDIO_SAMPLE_DATA_SIZE cfg.AUDIO_FRAME_DATA_SIZE))
          s5)
  else some s

/-- The value assigned to `audio_in_count` by the three-way test of
`audio_in_endpoint_callback`, for the FIFO level `count` read into the local variable. -/
def next_count (cfg : Config) (frame_size count : Nat) : Nat :=
  if count > cfg.rxFifoTriggerLevel then u32_add frame_size cfg.AUDIO_DELTA_VALUE
  else if count < frame_size then u32_sub frame_size cfg.AUDIO_DELTA_VALUE
  else frame_size

/-- The function `audio_in_endpoint_callback` (its four arguments are unused). -/
def audio_in_endpoint_callback (cfg : Config) (s : State) : State :=
  let s1 : State :=
    if s.audio_in_is_recording == true then
      driver_call
        (Action.Cy_USB_Dev_WriteEpNonBlocking
          (u32_mul s.audio_in_count cfg.AUDIO_SAMPLE_DATA_SIZE))
        s
    else s
  let r := Cy_PDM_PCM_GetNumInFifo s1
  let count := u32 r.1
  let s2 : State :=
    { r.2 with audio_in_count := next_count cfg r.2.audio_in_frame_size count }
  let s3 := driver_call (Action.Cy_DMA_Descriptor_SetXloopDataCount s2.audio_in_count) s2
  driver_call Action.Cy_DMA_Channel_Enable s3

/-! ## Call sequences -/

/-- One event: a call of one of the entry points, or the capture hardware bringing the
RX FIFO to a new level between two calls. -/
inductive Op where
  | enable
  | disable
  | process
  | callback
  | fifo (level : Nat)
deriving DecidableEq


/-- Effect of one event; `none` when `audio_in_process` has no defined result. -/
def step (cfg : Config) (s : State) : Op → Option State
  | Op.enable => some (audio_in_enable s)
  | Op.disable => some (audio_in_disable s)
  | Op.process => audio_in_process cfg s
  | Op.callback => some (audio_in_endpoint_callback cfg s)
  | Op.fifo level => some { s with pdm_rx_fifo := level }

/-- Effect of a sequence of events, first event first. -/
def run (cfg : Config) : State → List Op → Option State
  | s, [] => some s
  | s, op :: ops =>
    match step cfg s op with
    | none => none
    | some s1 => run cfg s1 ops

/-- The state right after `audio_in_init`. -/
def init_state (cfg : Config) : State :=
  audio_in_init (static_init cfg)

/-- Number of USB endpoint writes in a list of driver calls. -/
def usb_writes : List Action → Nat
  | [] => 0
  | Action.Cy_USB_Dev_WriteEpNonBlocking _ :: as => usb_writes as + 1
  | _ :: as => usb_writes as

/-- The transfer length most recently programmed into the DMA descriptor, if any. -/
def last_dma_count (tr : List Action) : Option Nat :=
  tr.foldl
    (fun acc a =>
      match a with
      | Action.Cy_DMA_Descriptor_SetXloopDataCount c => some c
      | _ => acc)
    none

/-- The rule of the frame-size controller as the specification words it, over the
integers: `n + d` above the trigger level, else `n - d` below the nominal size, else `n`. -/
def spec_next_transfer_count (o n d t : Nat) : Int :=
  if o > t then (n : Int) + d else if o < n then (n : Int) - d else n


/-! ## Concrete configurations and states used as test inputs -/

/-- Constants of the scenarios of the specification: nominal frame of 48 samples, step 4,
buffer of 52 words, endpoint of 104 bytes, trigger level 60. -/
def cfg_48_4 : Config :=
  { AUDIO_FRAME_DATA_SIZE := 48
    AUDIO_DELTA_VALUE := 4
    AUDIO_MAX_DATA_SIZE := 52
    AUDIO_SAMPLE_DATA_SIZE := 2
    AUDIO_IN_ENDPOINT_SIZE := 104
    rxFifoTriggerLevel := 60 }

/-- Constants with a trigger level of 30, below the nominal frame of 48 samples. -/
def cfg_trigger_30 : Config :=
  { AUDIO_FRAME_DATA_SIZE := 48
    AUDIO_DELTA_VALUE := 4
    AUDIO_MAX_DATA_SIZE := 52
    AUDIO_SAMPLE_DATA_SIZE := 2
    AUDIO_IN_ENDPOINT_SIZE := 104
    rxFifoTriggerLevel := 30 }

/-- Constants with a buffer of exactly the nominal frame: 48 words for 48 samples, step 4. -/
def cfg_buffer_48 : Config :=
  { AUDIO_FRAME_DATA_SIZE := 48
    AUDIO_DELTA_VALUE := 4
    AUDIO_MAX_DATA_SIZE := 48
    AUDIO_SAMPLE_DATA_SIZE := 2
    AUDIO_IN_ENDPOINT_SIZE := 96
    rxFifoTriggerLevel := 60 }

/-- Constants with a step larger than the nominal frame: 2 samples, step 4. -/
def cfg_step_4_frame_2 : Config :=
  { AUDIO_FRAME_DATA_SIZE := 2
    AUDIO_DELTA_VALUE := 4
    AUDIO_MAX_DATA_SIZE := 6
    AUDIO_SAMPLE_DATA_SIZE := 2
    AUDIO_IN_ENDPOINT_SIZE := 12
    rxFifoTriggerLevel := 60 }

/-- A recording state: no start request pending, captured samples in the buffer, ten
samples in the FIFO. -/
def state_recording : State :=
  { audio_in_pcm_buffer := List.replicate 52 7
    audio_in_count := 48
    audio_in_start_recording := false
    audio_in_is_recording := true
    audio_in_frame_size := 48
    pdm_rx_fifo := 10
    trace := [] }

/-- What holds in every state reached from `audio_in_init` when the `memset` of
`audio_in_process` stays within the buffer. -/
def reachable_inv (cfg : Config) (s : State) : Prop :=
  s.audio_in_pcm_buffer.length = cfg.AUDIO_MAX_DATA_SIZE
  ∧ s.audio_in_frame_size = u32 cfg.AUDIO_FRAME_DATA_SIZE
  ∧ (s.audio_in_count = u32 cfg.AUDIO_FRAME_DATA_SIZE
     ∨ s.audio_in_count = u32_add (u32 cfg.AUDIO_FRAME_DATA_SIZE) cfg.AUDIO_DELTA_VALUE
     ∨ s.audio_in_count = u32_sub (u32 cfg.AUDIO_FRAME_DATA_SIZE) cfg.AUDIO_DELTA_VALUE)
  ∧ s.audio_in_count
      = (last_dma_count s.trace).getD (init_state cfg).audio_in_count

/-! ## Basic facts about the functions -/

theorem u32_add_cast (a b : Nat) :
    ((u32_add a b : Nat) : Int) = ((a : Int) + b) % (UINT32_MOD : Int) := by
  unfold u32_add UINT32_MOD
  push_cast
  omega

theorem u32_sub_cast (a b : Nat) :
    ((u32_sub a b : Nat) : Int) = ((a : Int) - b) % (UINT32_MOD : Int) := by
  unfold u32_sub UINT32_MOD
  push_cast
  omega

theorem callback_count (cfg : Config) (s : State) :
    (audio_in_endpoint_callback cfg s).audio_in_count
      = next_count cfg s.audio_in_frame_size (u32 s.pdm_rx_fifo) := by
  unfold audio_in_endpoint_callback
  by_cases h : s.audio_in_is_recording = true <;> simp [h]

theorem callback_frame_size (cfg : Config) (s : State) :
    (audio_in_endpoint_callback cfg s).audio_in_frame_size = s.audio_in_frame_size := by
  unfold audio_in_endpoint_callback
  by_cases h : s.audio_in_is_recording = true <;> simp [h]

theorem callback_is_recording (cfg : Config) (s : State) :
    (audio_in_endpoint_callback cfg s).audio_in_is_recording = s.audio_in_is_recording := by
  unfold audio_in_endpoint_callback
  by_cases h : s.audio_in_is_recording = true <;> simp [h]

theorem callback_start_recording (cfg : Config) (s : State) :
    (audio_in_endpoint_callback cfg s).audio_in_start_recording
      = s.audio_in_start_recording := by
  unfold audio_in_endpoint_callback
  by_cases h : s.audio_in_is_recording = true <;> simp [h]

theorem callback_trace (cfg : Config) (s : State) :
    (audio_in_endpoint_callback cfg s).trace
      = s.trace
        ++ (if s.audio_in_is_recording = true then
              [Action.Cy_USB_Dev_WriteEpNonBlocking
                (u32_mul s.audio_in_count cfg.AUDIO_SAMPLE_DATA_SIZE)]
            else [])
        ++ [ Action.Cy_PDM_PCM_GetNumInFifo,
             Action.Cy_DMA_Descriptor_SetXloopDataCount
               (audio_in_endpoint_callback cfg s).audio_in_count,
             Action.Cy_DMA_Channel_Enable ] := by
  rw [callback_count]
  unfold audio_in_endpoint_callback
  by_cases h : s.audio_in_is_recording = true <;> simp [h]

theorem usb_writes_append (xs ys : List Action) :
    usb_writes (xs ++ ys) = usb_writes xs + usb_writes ys := by
  induction xs with
  | nil => simp [usb_writes]
  | cons a as ih =>
    cases a <;> simp [usb_writes, ih]; omega

theorem last_dma_count_append (xs ys : List Action) :
    last_dma_count (xs ++ ys)
      = ys.foldl
          (fun acc a =>
            match a with
            | Action.Cy_DMA_Descriptor_SetXloopDataCount c => some c
            | _ => acc)
          (last_dma_count xs) := by
  simp [last_dma_count, List.foldl_append]

theorem u32_le (x : Nat) : u32 x ≤ x := Nat.mod_le x UINT32_MOD

theorem zero_bytes_length (ws : List Nat) (k : Nat) :
    (zero_bytes ws k).length = ws.length := by
  induction ws generalizing k with
  | nil => rfl
  | cons w ws ih => simp [zero_bytes, ih]

/-- A word with both bytes among the first `k` bytes is zero afterwards. -/
theorem zero_bytes_cleared (ws : List Nat) (k i : Nat)
    (hi : i < ws.length) (hk : 2 * i + 2 ≤ k) :
    (zero_bytes ws k)[i]? = some 0 := by
  induction ws generalizing k i with
  | nil => simp at hi
  | cons w ws ih =>
    cases i with
    | zero =>
      have h2 : 2 ≤ k := by omega
      simp [zero_bytes, h2]
    | succ j =>
      simp only [zero_bytes, List.getElem?_cons_succ]
      exact ih (k - 2) j (by simpa using hi) (by omega)

/-- Zeroing at least all the bytes of the array leaves zeros only. -/
theorem zero_bytes_all (ws : List Nat) (k : Nat) (hk : 2 * ws.length ≤ k) :
    zero_bytes ws k = List.replicate ws.length 0 := by
  induction ws generalizing k with
  | nil => rfl
  | cons w ws ih =>
    have h2 : 2 ≤ k := by simp at hk; omega
    have hrest : 2 * ws.length ≤ k - 2 := by simp at hk; omega
    simp [zero_bytes, h2, ih (k - 2) hrest, List.replicate_succ]

/-- The result of `audio_in_process` on a pending start request when the `memset` stays
within the buffer. -/
theorem process_of_start (cfg : Config) (s : State)
    (h : s.audio_in_start_recording = true)
    (hin : u32 cfg.AUDIO_IN_ENDPOINT_SIZE ≤ 2 * s.audio_in_pcm_buffer.length) :
    audio_in_process cfg s
      = some
          { s with
            audio_in_start_recording := false
            audio_in_is_recording := true
            audio_in_pcm_buffer :=
              zero_bytes s.audio_in_pcm_buffer (u32 cfg.AUDIO_IN_ENDPOINT_SIZE)
            pdm_rx_fifo := 0
            trace := s.trace ++
              [ Action.memset_pcm_buffer (u32 cfg.AUDIO_IN_ENDPOINT_SIZE),
                Action.Cy_PDM_PCM_ClearFifo,
                Action.Cy_PDM_PCM_Enable,
                Action.Cy_USB_Dev_WriteEpNonBlocking
                  (u32_mul cfg.AUDIO_SAMPLE_DATA_SIZE cfg.AUDIO_FRAME_DATA_SIZE) ] } := by
  simp [audio_in_process, memset_audio_in_pcm_buffer, h, hin]

theorem process_of_no_start (cfg : Config) (s : State)
    (h : s.audio_in_start_recording = false) :
    audio_in_process cfg s = some s := by
  simp [audio_in_process, h]

theorem run_nil (cfg : Config) (s : State) : run cfg s [] = some s := rfl

theorem run_cons_some (cfg : Config) (s s1 : State) (op : Op) (ops : List Op)
    (h : step cfg s op = some s1) :
    run cfg s (op :: ops) = run cfg s1 ops := by
  simp [run, h]

/-- A property kept by every event, each event having a result where it holds, holds at
the end of every sequence of events, which then has a result. -/
theorem run_invariant (cfg : Config) (P : State → Prop)
    (hstep : ∀ s op, P s → ∃ s1, step cfg s op = some s1 ∧ P s1) :
    ∀ (ops : List Op) (s : State), P s → ∃ s1, run cfg s ops = some s1 ∧ P s1 := by
  intro ops
  induction ops with
  | nil => intro s hs; exact ⟨s, rfl, hs⟩
  | cons op ops ih =>
    intro s hs
    obtain ⟨s1, h1, hP⟩ := hstep s op hs
    obtain ⟨s2, h2, hP2⟩ := ih s1 hP
    exact ⟨s2, (run_cons_some cfg s s1 op ops h1).trans h2, hP2⟩

theorem init_state_inv (cfg : Config) : reachable_inv cfg (init_state cfg) := by
  refine ⟨?_, ?_, Or.inl ?_, ?_⟩
  · simp [init_state, audio_in_init, static_init]
  · simp [init_state, audio_in_init, static_init]
  · simp [init_state, audio_in_init, static_init]
  · simp [init_state, audio_in_init, static_init, last_dma_count]

theorem step_inv (cfg : Config)
    (hep : u32 cfg.AUDIO_IN_ENDPOINT_SIZE ≤ 2 * cfg.AUDIO_MAX_DATA_SIZE)
    (s : State) (op : Op) (hs : reachable_inv cfg s) :
    ∃ s1, step cfg s op = some s1 ∧ reachable_inv cfg s1 := by
  obtain ⟨hlen, hf, hc, hl⟩ := hs
  cases op with
  | enable => exact ⟨_, rfl, hlen, hf, hc, hl⟩
  | disable => exact ⟨_, rfl, hlen, hf, hc, hl⟩
  | process =>
    by_cases h : s.audio_in_start_recording = true
    · refine ⟨_, process_of_start cfg s h (by rw [hlen]; exact hep), ?_, hf, hc, ?_⟩
      · simp [zero_bytes_length, hlen]
      · simp only [last_dma_count_append, List.foldl]
        exact hl
    · exact ⟨s, process_of_no_start cfg s (by simpa using h), hlen, hf, hc, hl⟩
  | callback =>
    refine ⟨_, rfl, ?_, (callback_frame_size cfg s).trans hf, ?_, ?_⟩
    · unfold audio_in_endpoint_callback
      by_cases h : s.audio_in_is_recording = true <;> simp [h, hlen]
    · simp only [callback_count, hf, next_count]
      split_ifs
      · exact Or.inr (Or.inl rfl)
      · exact Or.inr (Or.inr rfl)
      · exact Or.inl rfl
    · rw [callback_trace, last_dma_count_append]
      rfl
  | fifo level => exact ⟨_, rfl, hlen, hf, hc, hl⟩

/-- Every sequence of events after `audio_in_init` has a result, and the invariant holds
there, when the `memset` of `audio_in_process` stays within the buffer. -/
theorem reachable (cfg : Config) (ops : List Op)
    (hep : u32 cfg.AUDIO_IN_ENDPOINT_SIZE ≤ 2 * cfg.AUDIO_MAX_DATA_SIZE) :
    ∃ s, run cfg (init_state cfg) ops = some s ∧ reachable_inv cfg s :=
  run_invariant cfg (reachable_inv cfg) (step_inv cfg hep) ops (init_state cfg)
    (init_state_inv cfg)

/-- Without a call of `audio_in_process`, a session that is not recording and has a start
request pending stays so, no USB write is issued and the buffer is not written. -/
theorem run_without_process (cfg : Config) :
    ∀ (ops : List Op) (s : State), Op.process ∉ ops →
      s.audio_in_is_recording = false → s.audio_in_start_recording = true →
      ∃ s1, run cfg s ops = some s1
        ∧ s1.audio_in_is_recording = false
        ∧ s1.audio_in_start_recording = true
        ∧ usb_writes s1.trace = usb_writes s.trace
        ∧ s1.audio_in_pcm_buffer = s.audio_in_pcm_buffer := by
  intro ops
  induction ops with
  | nil => intro s _ hrec hstart; exact ⟨s, rfl, hrec, hstart, rfl, rfl⟩
  | cons op ops ih =>
    intro s hmem hrec hstart
    have hop : op ≠ Op.process := fun h => hmem (by simp [h])
    have hrest : Op.process ∉ ops := fun h => hmem (by simp [h])
    cases op with
    | enable =>
      obtain ⟨s1, h1, h⟩ := ih (audio_in_enable s) hrest hrec rfl
      exact ⟨s1, (run_cons_some cfg s (audio_in_enable s) Op.enable ops rfl).trans h1, h⟩
    | disable =>
      obtain ⟨s1, h1, h⟩ := ih (audio_in_disable s) hrest rfl hstart
      exact ⟨s1, (run_cons_some cfg s (audio_in_disable s) Op.disable ops rfl).trans h1, h⟩
    | process => exact absurd rfl hop
    | callback =>
      obtain ⟨s1, h1, ha, hb, hc, hd⟩ := ih (audio_in_endpoint_callback cfg s) hrest
        ((callback_is_recording cfg s).trans hrec)
        ((callback_start_recording cfg s).trans hstart)
      refine ⟨s1, (run_cons_some cfg s (audio_in_endpoint_callback cfg s) Op.callback ops
        rfl).trans h1, ha, hb, hc.trans ?_,
        hd.trans ?_⟩
      · rw [callback_trace]
        simp [hrec, usb_writes_append, usb_writes]
      · unfold audio_in_endpoint_callback
        simp [hrec]
    | fifo level =>
      obtain ⟨s1, h1, h⟩ := ih { s with pdm_rx_fifo := level } hrest hrec hstart
      exact ⟨s1, (run_cons_some cfg s { s with pdm_rx_fifo := level } (Op.fifo level) ops
        rfl).trans h1, h⟩

/-! ## The frame-size controller -/

/-- C1: for every FIFO level `o`, previous count `c` and recording flag `r`, the count
stored by `audio_in_endpoint_callback` is the value of the three-way rule of the
specification (`n + d` if `o > t`, otherwise `n - d` if `o < n`, otherwise `n`, tried in
that order) taken as a `uint32_t`, that is modulo `2 ^ 32`; it depends on `o`, the frame
size `n`, the step `d` and the trigger level `t` only.  When `n + d` fits a `uint32_t`
and `d ≤ n` it is the value of the rule itself. -/
theorem audio_in_endpoint_callback_count (cfg : Config) (s : State) (o c : Nat) (r : Bool)
    (ho : o < UINT32_MOD) (hn : s.audio_in_frame_size < UINT32_MOD) :
    (((audio_in_endpoint_callback cfg
        { s with pdm_rx_fifo := o, audio_in_count := c, audio_in_is_recording := r }).audio_in_count
        : Nat) : Int)
      = spec_next_transfer_count o s.audio_in_frame_size cfg.AUDIO_DELTA_VALUE
          cfg.rxFifoTriggerLevel % (UINT32_MOD : Int)
    ∧ (s.audio_in_frame_size + cfg.AUDIO_DELTA_VALUE < UINT32_MOD →
        cfg.AUDIO_DELTA_VALUE ≤ s.audio_in_frame_size →
        (((audio_in_endpoint_callback cfg
            { s with pdm_rx_fifo := o, audio_in_count := c,
                     audio_in_is_recording := r }).audio_in_count : Nat) : Int)
          = spec_next_transfer_count o s.audio_in_frame_size cfg.AUDIO_DELTA_VALUE
              cfg.rxFifoTriggerLevel) := by
  have hmod : (((audio_in_endpoint_callback cfg
        { s with pdm_rx_fifo := o, audio_in_count := c, audio_in_is_recording := r }).audio_in_count
        : Nat) : Int)
      = spec_next_transfer_count o s.audio_in_frame_size cfg.AUDIO_DELTA_VALUE
          cfg.rxFifoTriggerLevel % (UINT32_MOD : Int) := by
    rw [callback_count]
    have ho2 : u32 o = o := Nat.mod_eq_of_lt ho
    simp only [ho2, next_count, spec_next_transfer_count]
    split_ifs
    · exact u32_add_cast _ _
    · exact u32_sub_cast _ _
    · unfold UINT32_MOD at hn ⊢
      omega
  refine ⟨hmod, ?_⟩
  intro hadd hsub
  rw [hmod]
  unfold spec_next_transfer_count
  unfold UINT32_MOD at hn hadd ⊢
  split_ifs <;> omega

/-- Scenarios A, B and C of the specification with nominal size 48, step 4 and trigger
level 60: a level of 61 gives 52, a level of 40 gives 44, a level of 48 gives 48, here
from a previous count of 52 or 44 and with either value of the recording flag.  With a
trigger level of 30 the level of 40, between trigger level and nominal size, gives 52. -/
theorem audio_in_endpoint_callback_count_witness :
    (61 < UINT32_MOD ∧ 40 < UINT32_MOD ∧ 48 < UINT32_MOD
      ∧ (init_state cfg_48_4).audio_in_frame_size < UINT32_MOD)
    ∧ (((audio_in_endpoint_callback cfg_48_4
          { init_state cfg_48_4 with
            pdm_rx_fifo := 61, audio_in_count := 44, audio_in_is_recording := true }).audio_in_count
          : Nat) : Int) = 52
    ∧ (((audio_in_endpoint_callback cfg_48_4
          { init_state cfg_48_4 with
            pdm_rx_fifo := 40, audio_in_count := 52, audio_in_is_recording := false }).audio_in_count
          : Nat) : Int) = 44
    ∧ (((audio_in_endpoint_callback cfg_48_4
          { init_state cfg_48_4 with
            pdm_rx_fifo := 48, audio_in_count := 52, audio_in_is_recording := true }).audio_in_count
          : Nat) : Int) = 48
    ∧ (((audio_in_endpoint_callback cfg_trigger_30
          { init_state cfg_trigger_30 with
            pdm_rx_fifo := 40, audio_in_count := 48, audio_in_is_recording := true }).audio_in_count
          : Nat) : Int) = 52 :=
  ⟨⟨by decide, by decide, by decide, by decide⟩,
   (audio_in_endpoint_callback_count cfg_48_4 (init_state cfg_48_4) 61 44 true
      (by decide) (by decide)).1.trans (by decide),
   (audio_in_endpoint_callback_count cfg_48_4 (init_state cfg_48_4) 40 52 false
      (by decide) (by decide)).2 (by decide) (by decide) |>.trans (by decide),
   (audio_in_endpoint_callback_count cfg_48_4 (init_state cfg_48_4) 48 52 true
      (by decide) (by decide)).1.trans (by decide),
   (audio_in_endpoint_callback_count cfg_trigger_30 (init_state cfg_trigger_30) 40 48 true
      (by decide) (by decide)).1.trans (by decide)⟩

/-- C2, as the code has it: when the constants satisfy `AUDIO_DELTA_VALUE ≤
AUDIO_FRAME_DATA_SIZE` and `AUDIO_FRAME_DATA_SIZE + AUDIO_DELTA_VALUE ≤
AUDIO_MAX_DATA_SIZE < 2 ^ 32`, and the `memset` of `audio_in_process` stays within the
sample buffer (`AUDIO_IN_ENDPOINT_SIZE ≤ 2 * AUDIO_MAX_DATA_SIZE`), every sequence of
enable, disable, process and callback calls with arbitrary FIFO levels after
`audio_in_init` has a result, and there the count lies between nominal size minus step
and nominal size plus step, without wrapping, and is at most the capacity of the sample
buffer.  There is no clamp and no accumulation: each callback computes the count from
the nominal size, so the count is the nominal size, or the nominal size plus or minus
one step. -/
theorem audio_in_count_bounds (cfg : Config) (ops : List Op)
    (hd : cfg.AUDIO_DELTA_VALUE ≤ cfg.AUDIO_FRAME_DATA_SIZE)
    (hmax : cfg.AUDIO_FRAME_DATA_SIZE + cfg.AUDIO_DELTA_VALUE ≤ cfg.AUDIO_MAX_DATA_SIZE)
    (h32 : cfg.AUDIO_MAX_DATA_SIZE < UINT32_MOD)
    (hep : u32 cfg.AUDIO_IN_ENDPOINT_SIZE ≤ 2 * cfg.AUDIO_MAX_DATA_SIZE) :
    ∃ s, run cfg (init_state cfg) ops = some s
      ∧ cfg.AUDIO_FRAME_DATA_SIZE - cfg.AUDIO_DELTA_VALUE ≤ s.audio_in_count
      ∧ s.audio_in_count ≤ cfg.AUDIO_FRAME_DATA_SIZE + cfg.AUDIO_DELTA_VALUE
      ∧ s.audio_in_count ≤ cfg.AUDIO_MAX_DATA_SIZE
      ∧ (s.audio_in_count = cfg.AUDIO_FRAME_DATA_SIZE
         ∨ s.audio_in_count = cfg.AUDIO_FRAME_DATA_SIZE + cfg.AUDIO_DELTA_VALUE
         ∨ s.audio_in_count = cfg.AUDIO_FRAME_DATA_SIZE - cfg.AUDIO_DELTA_VALUE) := by
  obtain ⟨s, hs, _, _, hc, _⟩ := reachable cfg ops hep
  refine ⟨s, hs, ?_⟩
  unfold u32 u32_add u32_sub at hc
  unfold UINT32_MOD at hc h32
  omega

/-- A session started with nominal size 48, step 4, a buffer of 52 words and an endpoint
of 104 bytes, then three callbacks in a row with the FIFO above the trigger level: the
count ends at 52, within 44 and 52. -/
theorem audio_in_count_bounds_witness :
    (cfg_48_4.AUDIO_DELTA_VALUE ≤ cfg_48_4.AUDIO_FRAME_DATA_SIZE
      ∧ cfg_48_4.AUDIO_FRAME_DATA_SIZE + cfg_48_4.AUDIO_DELTA_VALUE
          ≤ cfg_48_4.AUDIO_MAX_DATA_SIZE
      ∧ cfg_48_4.AUDIO_MAX_DATA_SIZE < UINT32_MOD
      ∧ u32 cfg_48_4.AUDIO_IN_ENDPOINT_SIZE ≤ 2 * cfg_48_4.AUDIO_MAX_DATA_SIZE)
    ∧ (∃ s, run cfg_48_4 (init_state cfg_48_4)
          [Op.enable, Op.process, Op.fifo 61, Op.callback, Op.fifo 70, Op.callback,
            Op.fifo 80, Op.callback] = some s
        ∧ cfg_48_4.AUDIO_FRAME_DATA_SIZE - cfg_48_4.AUDIO_DELTA_VALUE ≤ s.audio_in_count
        ∧ s.audio_in_count ≤ cfg_48_4.AUDIO_FRAME_DATA_SIZE + cfg_48_4.AUDIO_DELTA_VALUE
        ∧ s.audio_in_count ≤ cfg_48_4.AUDIO_MAX_DATA_SIZE
        ∧ (s.audio_in_count = cfg_48_4.AUDIO_FRAME_DATA_SIZE
           ∨ s.audio_in_count
               = cfg_48_4.AUDIO_FRAME_DATA_SIZE + cfg_48_4.AUDIO_DELTA_VALUE
           ∨ s.audio_in_count
               = cfg_48_4.AUDIO_FRAME_DATA_SIZE - cfg_48_4.AUDIO_DELTA_VALUE))
    ∧ (run cfg_48_4 (init_state cfg_48_4)
          [Op.enable, Op.process, Op.fifo 61, Op.callback, Op.fifo 70, Op.callback,
            Op.fifo 80, Op.callback]).map (fun s => s.audio_in_count) = some 52 :=
  ⟨⟨by decide, by decide, by decide, by decide⟩,
   audio_in_count_bounds cfg_48_4
     [Op.enable, Op.process, Op.fifo 61, Op.callback, Op.fifo 70, Op.callback,
       Op.fifo 80, Op.callback]
     (by decide) (by decide) (by decide) (by decide),
   by decide⟩

/-- C2 as stated fails: the code has no clamp.  With a buffer of 48 words, nominal size 48
and step 4, three callbacks above the trigger level leave the count at 52, above the
capacity; with nominal size 2 and step 4, one callback with a single sample in the FIFO
stores `2 - 4` wrapped to 4294967294, outside of `[n - d, n + d]`.  In both cases the
endpoint size is that of the buffer. -/
theorem audio_in_count_bounds_counterexample :
    (run cfg_buffer_48 (init_state cfg_buffer_48)
        [Op.fifo 61, Op.callback, Op.fifo 61, Op.callback, Op.fifo 61,
          Op.callback]).map (fun s => s.audio_in_count) = some 52
    ∧ ¬ (52 ≤ cfg_buffer_48.AUDIO_MAX_DATA_SIZE)
    ∧ (run cfg_step_4_frame_2 (init_state cfg_step_4_frame_2)
        [Op.fifo 1, Op.callback]).map (fun s => s.audio_in_count) = some 4294967294
    ∧ ¬ (4294967294
          ≤ cfg_step_4_frame_2.AUDIO_FRAME_DATA_SIZE + cfg_step_4_frame_2.AUDIO_DELTA_VALUE)
    ∧ u32 cfg_buffer_48.AUDIO_IN_ENDPOINT_SIZE = 2 * cfg_buffer_48.AUDIO_MAX_DATA_SIZE
    ∧ u32 cfg_step_4_frame_2.AUDIO_IN_ENDPOINT_SIZE
        = 2 * cfg_step_4_frame_2.AUDIO_MAX_DATA_SIZE := by
  decide

/-! ## The transfer pump -/

/-- C3, as the code has it: when the `memset` of `audio_in_process` stays within the
sample buffer (`AUDIO_IN_ENDPOINT_SIZE ≤ 2 * AUDIO_MAX_DATA_SIZE`), every sequence of
events after `audio_in_init` has a result, and there the count on entry of a callback is
the value stored by the most recent callback, which is the length last programmed into
the DMA descriptor, or the value stored by `audio_in_init` if no callback ran yet; the
USB write of a callback on a recording session has
`audio_in_count * AUDIO_SAMPLE_DATA_SIZE` bytes for that count on entry, hence that many
samples when the product fits a `uint32_t`, and precedes the programming of the newly
computed count.  The write issued by `audio_in_process` always has the length of the
nominal frame, whatever the count. -/
theorem usb_write_length (cfg : Config) (ops : List Op)
    (hep : u32 cfg.AUDIO_IN_ENDPOINT_SIZE ≤ 2 * cfg.AUDIO_MAX_DATA_SIZE) :
    ∃ s, run cfg (init_state cfg) ops = some s
      ∧ s.audio_in_count
          = (last_dma_count s.trace).getD (init_state cfg).audio_in_count
      ∧ (s.audio_in_is_recording = true →
          (audio_in_endpoint_callback cfg s).trace
            = s.trace ++
              [ Action.Cy_USB_Dev_WriteEpNonBlocking
                  (u32_mul s.audio_in_count cfg.AUDIO_SAMPLE_DATA_SIZE),
                Action.Cy_PDM_PCM_GetNumInFifo,
                Action.Cy_DMA_Descriptor_SetXloopDataCount
                  (audio_in_endpoint_callback cfg s).audio_in_count,
                Action.Cy_DMA_Channel_Enable ])
      ∧ (0 < cfg.AUDIO_SAMPLE_DATA_SIZE →
          s.audio_in_count * cfg.AUDIO_SAMPLE_DATA_SIZE < UINT32_MOD →
          u32_mul s.audio_in_count cfg.AUDIO_SAMPLE_DATA_SIZE / cfg.AUDIO_SAMPLE_DATA_SIZE
            = s.audio_in_count)
      ∧ (s.audio_in_start_recording = true →
          ∃ s1, audio_in_process cfg s = some s1
            ∧ s1.trace
                = s.trace ++
                  [ Action.memset_pcm_buffer (u32 cfg.AUDIO_IN_ENDPOINT_SIZE),
                    Action.Cy_PDM_PCM_ClearFifo,
                    Action.Cy_PDM_PCM_Enable,
                    Action.Cy_USB_Dev_WriteEpNonBlocking
                      (u32_mul cfg.AUDIO_SAMPLE_DATA_SIZE cfg.AUDIO_FRAME_DATA_SIZE) ]) := by
  obtain ⟨s, hs, hlen, _, _, hl⟩ := reachable cfg ops hep
  refine ⟨s, hs, hl, ?_, ?_, ?_⟩
  · intro hrec
    rw [callback_trace]
    simp [hrec]
  · intro hpos hlt
    unfold u32_mul
    rw [Nat.mod_eq_of_lt hlt]
    exact Nat.mul_div_cancel _ hpos
  · intro hstart
    exact ⟨_, process_of_start cfg s hstart (by rw [hlen]; exact hep), rfl⟩

/-- A session started with nominal size 48, step 4 and 2 bytes per sample, then a
callback above the trigger level: the session is recording, the count is the 52
programmed by that callback, and the next callback writes 104 bytes, that is 52
samples, before it programs 52 again. -/
theorem usb_write_length_witness :
    u32 cfg_48_4.AUDIO_IN_ENDPOINT_SIZE ≤ 2 * cfg_48_4.AUDIO_MAX_DATA_SIZE
    ∧ (∃ s, run cfg_48_4 (init_state cfg_48_4) [Op.enable, Op.process, Op.fifo 61, Op.callback] = some s
        ∧ s.audio_in_count
            = (last_dma_count s.trace).getD (init_state cfg_48_4).audio_in_count
        ∧ (s.audio_in_is_recording = true →
            (audio_in_endpoint_callback cfg_48_4 s).trace
              = s.trace ++
                [ Action.Cy_USB_Dev_WriteEpNonBlocking
                    (u32_mul s.audio_in_count cfg_48_4.AUDIO_SAMPLE_DATA_SIZE),
                  Action.Cy_PDM_PCM_GetNumInFifo,
                  Action.Cy_DMA_Descriptor_SetXloopDataCount
                    (audio_in_endpoint_callback cfg_48_4 s).audio_in_count,
                  Action.Cy_DMA_Channel_Enable ])
        ∧ (0 < cfg_48_4.AUDIO_SAMPLE_DATA_SIZE →
            s.audio_in_count * cfg_48_4.AUDIO_SAMPLE_DATA_SIZE < UINT32_MOD →
            u32_mul s.audio_in_count cfg_48_4.AUDIO_SAMPLE_DATA_SIZE
                / cfg_48_4.AUDIO_SAMPLE_DATA_SIZE
              = s.audio_in_count)
        ∧ (s.audio_in_start_recording = true →
            ∃ s1, audio_in_process cfg_48_4 s = some s1
              ∧ s1.trace
                  = s.trace ++
                    [ Action.memset_pcm_buffer (u32 cfg_48_4.AUDIO_IN_ENDPOINT_SIZE),
                      Action.Cy_PDM_PCM_ClearFifo,
                      Action.Cy_PDM_PCM_Enable,
                      Action.Cy_USB_Dev_WriteEpNonBlocking
                        (u32_mul cfg_48_4.AUDIO_SAMPLE_DATA_SIZE
                          cfg_48_4.AUDIO_FRAME_DATA_SIZE) ]))
    ∧ (run cfg_48_4 (init_state cfg_48_4) [Op.enable, Op.process, Op.fifo 61, Op.callback]).map
        (fun s => (s.audio_in_is_recording, s.audio_in_count, last_dma_count s.trace))
        = some (true, 52, some 52)
    ∧ (run cfg_48_4 (init_state cfg_48_4) [Op.enable, Op.process, Op.fifo 61, Op.callback]).map
        (fun s => (audio_in_endpoint_callback cfg_48_4 s).trace.drop s.trace.length)
        = some
            [ Action.Cy_USB_Dev_WriteEpNonBlocking 104,
              Action.Cy_PDM_PCM_GetNumInFifo,
              Action.Cy_DMA_Descriptor_SetXloopDataCount 52,
              Action.Cy_DMA_Channel_Enable ]
    ∧ 104 / cfg_48_4.AUDIO_SAMPLE_DATA_SIZE = 52 :=
  ⟨by decide, usb_write_length cfg_48_4 [Op.enable, Op.process, Op.fifo 61, Op.callback] (by decide), by decide, by decide,
   by decide⟩

/-- C3 as stated fails for the write of `audio_in_process`.  With nominal size 48, step 4
and 2 bytes per sample: a first session is started and stopped, its last callback stores
and programs 52; the write that starts the second session has 96 bytes, that is 48
samples, not the 52 stored by the most recent callback. -/
theorem usb_write_length_counterexample :
    (run cfg_48_4 (init_state cfg_48_4)
        [Op.enable, Op.process, Op.fifo 61, Op.callback, Op.disable, Op.callback,
          Op.enable]).map
        (fun s => (s.audio_in_count, last_dma_count s.trace)) = some (52, some 52)
    ∧ (run cfg_48_4 (init_state cfg_48_4)
        [Op.enable, Op.process, Op.fifo 61, Op.callback, Op.disable, Op.callback,
          Op.enable, Op.process]).map (fun s => s.trace.drop (s.trace.length - 4))
        = some
            [ Action.memset_pcm_buffer 104,
              Action.Cy_PDM_PCM_ClearFifo,
              Action.Cy_PDM_PCM_Enable,
              Action.Cy_USB_Dev_WriteEpNonBlocking 96 ]
    ∧ 96 / cfg_48_4.AUDIO_SAMPLE_DATA_SIZE = 48
    ∧ ¬ (96 / cfg_48_4.AUDIO_SAMPLE_DATA_SIZE = 52) := by
  decide

/-- C4: in every state, with any FIFO level, `audio_in_endpoint_callback` issues exactly
one USB endpoint write if `audio_in_is_recording` is true on entry and none if it is
false, so none right after `audio_in_disable`; in both cases it then reads the FIFO
level, sets the transfer length of the DMA descriptor to the newly computed count and
enables the DMA channel, in that order; both session flags are left unchanged. -/
theorem audio_in_endpoint_callback_actions (cfg : Config) (s : State) :
    (audio_in_endpoint_callback cfg s).trace
      = s.trace
        ++ (if s.audio_in_is_recording = true then
              [Action.Cy_USB_Dev_WriteEpNonBlocking
                (u32_mul s.audio_in_count cfg.AUDIO_SAMPLE_DATA_SIZE)]
            else [])
        ++ [ Action.Cy_PDM_PCM_GetNumInFifo,
             Action.Cy_DMA_Descriptor_SetXloopDataCount
               (next_count cfg s.audio_in_frame_size (u32 s.pdm_rx_fifo)),
             Action.Cy_DMA_Channel_Enable ]
    ∧ (audio_in_endpoint_callback cfg s).audio_in_count
        = next_count cfg s.audio_in_frame_size (u32 s.pdm_rx_fifo)
    ∧ usb_writes (audio_in_endpoint_callback cfg s).trace
        = usb_writes s.trace + (if s.audio_in_is_recording = true then 1 else 0)
    ∧ usb_writes (audio_in_endpoint_callback cfg (audio_in_disable s)).trace
        = usb_writes s.trace
    ∧ (audio_in_endpoint_callback cfg s).audio_in_start_recording
        = s.audio_in_start_recording
    ∧ (audio_in_endpoint_callback cfg s).audio_in_is_recording
        = s.audio_in_is_recording := by
  refine ⟨?_, callback_count cfg s, ?_, ?_, callback_start_recording cfg s,
    callback_is_recording cfg s⟩
  · rw [callback_trace, callback_count]
  · rw [callback_trace]
    by_cases h : s.audio_in_is_recording = true <;>
      simp [h, usb_writes_append, usb_writes]
  · rw [callback_trace]
    simp [audio_in_disable, usb_writes_append, usb_writes]

/-! ## Session start -/

/-- The result of `audio_in_process` on a pending start request, for constants under
which the `memset` covers the sample buffer exactly
(`AUDIO_IN_ENDPOINT_SIZE = 2 * AUDIO_MAX_DATA_SIZE`): the four calls in the order
`memset`, clear FIFO, enable PDM/PCM, USB write of the nominal frame, all words of the
buffer zero, the FIFO empty, the request flag cleared and the recording flag set.
Without a pending request the state is returned unchanged, whatever the constants. -/
theorem process_exact_memset (cfg : Config) (s : State)
    (hlen : s.audio_in_pcm_buffer.length = cfg.AUDIO_MAX_DATA_SIZE)
    (hep : u32 cfg.AUDIO_IN_ENDPOINT_SIZE = 2 * cfg.AUDIO_MAX_DATA_SIZE) :
    (s.audio_in_start_recording = true →
      ∃ s1, audio_in_process cfg s = some s1
        ∧ s1.trace
            = s.trace ++
              [ Action.memset_pcm_buffer (u32 cfg.AUDIO_IN_ENDPOINT_SIZE),
                Action.Cy_PDM_PCM_ClearFifo,
                Action.Cy_PDM_PCM_Enable,
                Action.Cy_USB_Dev_WriteEpNonBlocking
                  (u32_mul cfg.AUDIO_SAMPLE_DATA_SIZE cfg.AUDIO_FRAME_DATA_SIZE) ]
        ∧ s1.audio_in_pcm_buffer = List.replicate cfg.AUDIO_MAX_DATA_SIZE 0
        ∧ s1.pdm_rx_fifo = 0
        ∧ s1.audio_in_start_recording = false
        ∧ s1.audio_in_is_recording = true)
    ∧ (s.audio_in_start_recording = false → audio_in_process cfg s = some s) := by
  refine ⟨fun h => ?_, process_of_no_start cfg s⟩
  refine ⟨_, process_of_start cfg s h (by rw [hlen, hep]), rfl, ?_, rfl, rfl, rfl⟩
  show zero_bytes s.audio_in_pcm_buffer (u32 cfg.AUDIO_IN_ENDPOINT_SIZE) = _
  rw [← hlen]
  exact zero_bytes_all _ _ (by rw [hlen, hep])

/-- C7, as the code has it: from an idle state, `audio_in_enable` followed at once by
`audio_in_disable` leaves the start request pending.  As long as `audio_in_process`
does not run, whatever callbacks and other events follow, no USB write is issued and the
session is not recording; the next call of `audio_in_process` then starts the session:
when its `memset` stays within the sample buffer
(`AUDIO_IN_ENDPOINT_SIZE ≤ 2 * AUDIO_MAX_DATA_SIZE`) it issues one USB write and sets
the recording flag.  The two calls are no round trip: they change the state by setting
the start request. -/
theorem enable_disable_keeps_request (cfg : Config) (s : State) (ops : List Op)
    (hrec : s.audio_in_is_recording = false)
    (hstart : s.audio_in_start_recording = false)
    (hops : Op.process ∉ ops)
    (hlen : s.audio_in_pcm_buffer.length = cfg.AUDIO_MAX_DATA_SIZE)
    (hep : u32 cfg.AUDIO_IN_ENDPOINT_SIZE ≤ 2 * cfg.AUDIO_MAX_DATA_SIZE) :
    ∃ s1, run cfg (audio_in_disable (audio_in_enable s)) ops = some s1
      ∧ s1.audio_in_is_recording = false
      ∧ s1.audio_in_start_recording = true
      ∧ usb_writes s1.trace = usb_writes s.trace
      ∧ (∃ s2, audio_in_process cfg s1 = some s2
          ∧ s2.audio_in_is_recording = true
          ∧ usb_writes s2.trace = usb_writes s.trace + 1)
      ∧ audio_in_disable (audio_in_enable s) = { s with audio_in_start_recording := true }
      ∧ audio_in_disable (audio_in_enable s) ≠ s := by
  obtain ⟨s1, h0, h1, h2, h3, h4⟩ :=
    run_without_process cfg ops (audio_in_disable (audio_in_enable s)) hops rfl rfl
  have h3b : usb_writes s1.trace = usb_writes s.trace := h3
  have h4b : s1.audio_in_pcm_buffer = s.audio_in_pcm_buffer := h4
  refine ⟨s1, h0, h1, h2, h3b, ?_, ?_, ?_⟩
  · refine ⟨_, process_of_start cfg s1 h2 (by rw [h4b, hlen]; exact hep), rfl, ?_⟩
    show usb_writes (s1.trace ++ _) = _
    rw [usb_writes_append, h3b]
    simp [usb_writes]
  · simp [audio_in_disable, audio_in_enable, ← hrec]
  · intro heq
    have hflag := congrArg State.audio_in_start_recording heq
    rw [hstart] at hflag
    exact Bool.noConfusion hflag

/-- After `audio_in_init` with nominal size 48: enable, disable and two callbacks issue
no USB write and leave the session not recording; the call of `audio_in_process` that
follows starts the session with one write. -/
theorem enable_disable_keeps_request_witness :
    ((init_state cfg_48_4).audio_in_is_recording = false
      ∧ (init_state cfg_48_4).audio_in_start_recording = false
      ∧ Op.process ∉ [Op.callback, Op.fifo 61, Op.callback]
      ∧ (init_state cfg_48_4).audio_in_pcm_buffer.length = cfg_48_4.AUDIO_MAX_DATA_SIZE
      ∧ u32 cfg_48_4.AUDIO_IN_ENDPOINT_SIZE ≤ 2 * cfg_48_4.AUDIO_MAX_DATA_SIZE)
    ∧ (∃ s1, run cfg_48_4 (audio_in_disable (audio_in_enable (init_state cfg_48_4)))
          [Op.callback, Op.fifo 61, Op.callback] = some s1
        ∧ s1.audio_in_is_recording = false
        ∧ s1.audio_in_start_recording = true
        ∧ usb_writes s1.trace = usb_writes (init_state cfg_48_4).trace
        ∧ (∃ s2, audio_in_process cfg_48_4 s1 = some s2
            ∧ s2.audio_in_is_recording = true
            ∧ usb_writes s2.trace = usb_writes (init_state cfg_48_4).trace + 1)
        ∧ audio_in_disable (audio_in_enable (init_state cfg_48_4))
            = { init_state cfg_48_4 with audio_in_start_recording := true }
        ∧ audio_in_disable (audio_in_enable (init_state cfg_48_4)) ≠ init_state cfg_48_4)
    ∧ usb_writes (init_state cfg_48_4).trace = 0 :=
  ⟨⟨by decide, by decide, by decide, by decide, by decide⟩,
   enable_disable_keeps_request cfg_48_4 (init_state cfg_48_4)
     [Op.callback, Op.fifo 61, Op.callback]
     (by decide) (by decide) (by decide) (by decide) (by decide),
   by decide⟩

/-- C7 as stated fails: from the idle state after `audio_in_init`, enable, disable and
then one call of `audio_in_process` leave the session recording with one USB write
issued, and the callback after it issues a second one. -/
theorem enable_disable_keeps_request_counterexample :
    (init_state cfg_48_4).audio_in_is_recording = false
    ∧ (init_state cfg_48_4).audio_in_start_recording = false
    ∧ usb_writes (init_state cfg_48_4).trace = 0
    ∧ (run cfg_48_4 (init_state cfg_48_4) [Op.enable, Op.disable, Op.process]).map
        (fun s => (s.audio_in_is_recording, usb_writes s.trace)) = some (true, 1)
    ∧ (run cfg_48_4 (init_state cfg_48_4)
        [Op.enable, Op.disable, Op.process, Op.callback]).map
        (fun s => usb_writes s.trace) = some 2 := by
  decide

/-- C8, as the code has it: on a recording session with no start request pending, when
the `memset` of `audio_in_process` stays within the sample buffer
(`AUDIO_IN_ENDPOINT_SIZE ≤ 2 * AUDIO_MAX_DATA_SIZE`), `audio_in_enable` followed by
`audio_in_process` leaves both session flags, the count and the frame size as they
were, and starts the session again: the words within the first
`AUDIO_IN_ENDPOINT_SIZE` bytes of the sample buffer are zero afterwards (all words when
that length is the size of the buffer), the FIFO is cleared, the PDM/PCM block is
enabled and one more USB write of the nominal frame is issued. -/
theorem enable_process_while_recording (cfg : Config) (s : State)
    (hrec : s.audio_in_is_recording = true)
    (hstart : s.audio_in_start_recording = false)
    (hlen : s.audio_in_pcm_buffer.length = cfg.AUDIO_MAX_DATA_SIZE)
    (hep : u32 cfg.AUDIO_IN_ENDPOINT_SIZE ≤ 2 * cfg.AUDIO_MAX_DATA_SIZE) :
    ∃ s1, audio_in_process cfg (audio_in_enable s) = some s1
      ∧ s1.audio_in_is_recording = s.audio_in_is_recording
      ∧ s1.audio_in_start_recording = s.audio_in_start_recording
      ∧ s1.audio_in_count = s.audio_in_count
      ∧ s1.audio_in_frame_size = s.audio_in_frame_size
      ∧ s1.audio_in_pcm_buffer.length = cfg.AUDIO_MAX_DATA_SIZE
      ∧ (∀ i, 2 * i + 2 ≤ u32 cfg.AUDIO_IN_ENDPOINT_SIZE →
          s1.audio_in_pcm_buffer[i]? = some 0)
      ∧ (u32 cfg.AUDIO_IN_ENDPOINT_SIZE = 2 * cfg.AUDIO_MAX_DATA_SIZE →
          s1.audio_in_pcm_buffer = List.replicate cfg.AUDIO_MAX_DATA_SIZE 0)
      ∧ s1.pdm_rx_fifo = 0
      ∧ s1.trace
          = s.trace ++
            [ Action.memset_pcm_buffer (u32 cfg.AUDIO_IN_ENDPOINT_SIZE),
              Action.Cy_PDM_PCM_ClearFifo,
              Action.Cy_PDM_PCM_Enable,
              Action.Cy_USB_Dev_WriteEpNonBlocking
                (u32_mul cfg.AUDIO_SAMPLE_DATA_SIZE cfg.AUDIO_FRAME_DATA_SIZE) ] := by
  have hlen2 : (audio_in_enable s).audio_in_pcm_buffer.length = cfg.AUDIO_MAX_DATA_SIZE :=
    hlen
  refine ⟨_, process_of_start cfg (audio_in_enable s) rfl (by rw [hlen2]; exact hep),
    hrec.symm, hstart.symm, rfl, rfl, ?_, ?_, ?_, rfl, rfl⟩
  · show (zero_bytes s.audio_in_pcm_buffer _).length = _
    rw [zero_bytes_length, hlen]
  · intro i hi
    show (zero_bytes s.audio_in_pcm_buffer _)[i]? = some 0
    exact zero_bytes_cleared _ _ i (by omega) hi
  · intro hall
    show zero_bytes s.audio_in_pcm_buffer _ = _
    rw [← hlen]
    exact zero_bytes_all _ _ (by rw [hlen, hall])

/-- On a recording session holding captured samples, with nominal size 48, a buffer of
52 words and an endpoint of 104 bytes: the flags and the count are kept, the buffer is
zeroed, the FIFO is emptied and a write of 96 bytes is issued. -/
theorem enable_process_while_recording_witness :
    (state_recording.audio_in_is_recording = true
      ∧ state_recording.audio_in_start_recording = false
      ∧ state_recording.audio_in_pcm_buffer.length = cfg_48_4.AUDIO_MAX_DATA_SIZE
      ∧ u32 cfg_48_4.AUDIO_IN_ENDPOINT_SIZE ≤ 2 * cfg_48_4.AUDIO_MAX_DATA_SIZE)
    ∧ (∃ s1, audio_in_process cfg_48_4 (audio_in_enable state_recording) = some s1
        ∧ s1.audio_in_is_recording = state_recording.audio_in_is_recording
        ∧ s1.audio_in_start_recording = state_recording.audio_in_start_recording
        ∧ s1.audio_in_count = state_recording.audio_in_count
        ∧ s1.audio_in_frame_size = state_recording.audio_in_frame_size
        ∧ s1.audio_in_pcm_buffer.length = cfg_48_4.AUDIO_MAX_DATA_SIZE
        ∧ (∀ i, 2 * i + 2 ≤ u32 cfg_48_4.AUDIO_IN_ENDPOINT_SIZE →
            s1.audio_in_pcm_buffer[i]? = some 0)
        ∧ (u32 cfg_48_4.AUDIO_IN_ENDPOINT_SIZE = 2 * cfg_48_4.AUDIO_MAX_DATA_SIZE →
            s1.audio_in_pcm_buffer = List.replicate cfg_48_4.AUDIO_MAX_DATA_SIZE 0)
        ∧ s1.pdm_rx_fifo = 0
        ∧ s1.trace
            = state_recording.trace ++
              [ Action.memset_pcm_buffer (u32 cfg_48_4.AUDIO_IN_ENDPOINT_SIZE),
                Action.Cy_PDM_PCM_ClearFifo,
                Action.Cy_PDM_PCM_Enable,
                Action.Cy_USB_Dev_WriteEpNonBlocking
                  (u32_mul cfg_48_4.AUDIO_SAMPLE_DATA_SIZE
                    cfg_48_4.AUDIO_FRAME_DATA_SIZE) ])
    ∧ u32 cfg_48_4.AUDIO_IN_ENDPOINT_SIZE = 2 * cfg_48_4.AUDIO_MAX_DATA_SIZE
    ∧ (audio_in_process cfg_48_4 (audio_in_enable state_recording)).map
        (fun s => (s.audio_in_pcm_buffer, s.trace))
        = some
            (List.replicate 52 0,
              [ Action.memset_pcm_buffer 104,
                Action.Cy_PDM_PCM_ClearFifo,
                Action.Cy_PDM_PCM_Enable,
                Action.Cy_USB_Dev_WriteEpNonBlocking 96 ]) :=
  ⟨⟨by decide, by decide, by decide, by decide⟩,
   enable_process_while_recording cfg_48_4 state_recording
     (by decide) (by decide) (by decide) (by decide),
   by decide, by decide⟩

/-- C8 as stated fails: on a recording session whose buffer of 52 words holds captured
samples and whose FIFO holds ten samples, enable followed by `audio_in_process` zeroes
the buffer, clears the FIFO and issues a USB write. -/
theorem enable_process_while_recording_counterexample :
    state_recording.audio_in_is_recording = true
    ∧ state_recording.audio_in_start_recording = false
    ∧ state_recording.audio_in_pcm_buffer = List.replicate 52 7
    ∧ state_recording.pdm_rx_fifo = 10
    ∧ state_recording.trace = []
    ∧ (audio_in_process cfg_48_4 (audio_in_enable state_recording)).map
        (fun s => (s.audio_in_pcm_buffer, s.pdm_rx_fifo, s.trace))
        = some
            (List.replicate 52 0, 0,
              [ Action.memset_pcm_buffer 104,
                Action.Cy_PDM_PCM_ClearFifo,
                Action.Cy_PDM_PCM_Enable,
                Action.Cy_USB_Dev_WriteEpNonBlocking 96 ])
    ∧ ¬ (List.replicate 52 0 = state_recording.audio_in_pcm_buffer) := by
  decide


/-- C9: in every state where the session is not recording, in particular in every idle
state, `audio_in_disable` returns its input state: both flags, the count, the frame
size, the sample buffer, the FIFO and the list of driver calls are unchanged. -/
theorem audio_in_disable_idle (s : State)
    (hrec : s.audio_in_is_recording = false)
    (hstart : s.audio_in_start_recording = false) :
    audio_in_disable s = s
    ∧ (audio_in_disable s).trace = s.trace
    ∧ (audio_in_disable s).audio_in_start_recording = false
    ∧ (audio_in_disable s).audio_in_is_recording = false := by
  have h : audio_in_disable s = s := by
    cases s
    simp only [audio_in_disable] at hrec ⊢
    simp [hrec]
  exact ⟨h, rfl, hstart, rfl⟩

/-- The state right after `audio_in_init` is idle and `audio_in_disable` returns it. -/
theorem audio_in_disable_idle_witness :
    ((init_state cfg_48_4).audio_in_is_recording = false
      ∧ (init_state cfg_48_4).audio_in_start_recording = false)
    ∧ audio_in_disable (init_state cfg_48_4) = init_state cfg_48_4 :=
  ⟨⟨by decide, by decide⟩,
   (audio_in_disable_idle (init_state cfg_48_4) (by decide) (by decide)).1⟩

/-! ## Writers of the recording flag -/

/-- C10, as the code has it: `audio_in_is_recording` is written by `audio_in_process`,
which sets it when it handles a start request, and by `audio_in_disable`, which clears
it; `audio_in_endpoint_callback`, `audio_in_enable` and `audio_in_init` leave it
unchanged in every state.  The transition into recording is made by the periodic task:
without a start request `audio_in_process` returns the state unchanged, and when its
`memset` stays within the sample buffer
(`AUDIO_IN_ENDPOINT_SIZE ≤ 2 * AUDIO_MAX_DATA_SIZE`) the flag after it is set exactly
if a start request was pending or the flag was set before. -/
theorem is_recording_writers (cfg : Config) (s : State) :
    (audio_in_endpoint_callback cfg s).audio_in_is_recording = s.audio_in_is_recording
    ∧ (audio_in_enable s).audio_in_is_recording = s.audio_in_is_recording
    ∧ (audio_in_init s).audio_in_is_recording = s.audio_in_is_recording
    ∧ (audio_in_disable s).audio_in_is_recording = false
    ∧ (s.audio_in_start_recording = false → audio_in_process cfg s = some s)
    ∧ (s.audio_in_pcm_buffer.length = cfg.AUDIO_MAX_DATA_SIZE →
        u32 cfg.AUDIO_IN_ENDPOINT_SIZE ≤ 2 * cfg.AUDIO_MAX_DATA_SIZE →
        ∃ s1, audio_in_process cfg s = some s1
          ∧ s1.audio_in_is_recording
              = (s.audio_in_start_recording || s.audio_in_is_recording)) := by
  refine ⟨callback_is_recording cfg s, rfl, ?_, rfl, process_of_no_start cfg s, ?_⟩
  · simp [audio_in_init]
  · intro hlen hep
    by_cases h : s.audio_in_start_recording = true
    · refine ⟨_, process_of_start cfg s h (by rw [hlen]; exact hep), ?_⟩
      simp [h]
    · refine ⟨s, process_of_no_start cfg s (by simpa using h), ?_⟩
      simp [h]

/-- After `audio_in_init` and `audio_in_enable` with nominal size 48 the session is not
recording and a start request is pending: `audio_in_process` has a result and sets the
flag; called once more it returns the state unchanged. -/
theorem is_recording_writers_witness :
    ((audio_in_enable (init_state cfg_48_4)).audio_in_pcm_buffer.length
        = cfg_48_4.AUDIO_MAX_DATA_SIZE
      ∧ u32 cfg_48_4.AUDIO_IN_ENDPOINT_SIZE ≤ 2 * cfg_48_4.AUDIO_MAX_DATA_SIZE
      ∧ (init_state cfg_48_4).audio_in_start_recording = false)
    ∧ (∃ s1, audio_in_process cfg_48_4 (audio_in_enable (init_state cfg_48_4)) = some s1
        ∧ s1.audio_in_is_recording
            = ((audio_in_enable (init_state cfg_48_4)).audio_in_start_recording
                || (audio_in_enable (init_state cfg_48_4)).audio_in_is_recording))
    ∧ audio_in_process cfg_48_4 (init_state cfg_48_4) = some (init_state cfg_48_4)
    ∧ ((audio_in_enable (init_state cfg_48_4)).audio_in_start_recording
        || (audio_in_enable (init_state cfg_48_4)).audio_in_is_recording) = true :=
  ⟨⟨by decide, by decide, by decide⟩,
   (is_recording_writers cfg_48_4 (audio_in_enable (init_state cfg_48_4))).2.2.2.2.2
     (by decide) (by decide),
   (is_recording_writers cfg_48_4 (init_state cfg_48_4)).2.2.2.2.1 (by decide),
   by decide⟩

/-- C10 as stated fails: after `audio_in_init` and `audio_in_enable`, with a start
request pending and the session not recording, `audio_in_process` sets
`audio_in_is_recording`, while `audio_in_endpoint_callback` leaves it false. -/
theorem is_recording_writers_counterexample :
    (audio_in_enable (init_state cfg_48_4)).audio_in_is_recording = false
    ∧ (audio_in_enable (init_state cfg_48_4)).audio_in_start_recording = true
    ∧ (audio_in_process cfg_48_4 (audio_in_enable (init_state cfg_48_4))).map
        (fun s => s.audio_in_is_recording) = some true
    ∧ (audio_in_endpoint_callback cfg_48_4
        (audio_in_enable (init_state cfg_48_4))).audio_in_is_recording = false := by
  decide

end AudioIn
